import Mathlib

/-!
Shallow embedding of `src/api/src/functions/assistant.js`: a serverless
endpoint that streams an assistant's reply, demultiplexing an upstream
event stream into text fragments while intercepting `requires_action`
events and resuming the stream after supplying tool outputs.

External collaborators (the OpenAI SDK client, `JSON.parse`, `Math.random`,
the resumed event stream) are modelled as an explicit environment record.
Async generators become functions from a finite event list to the list of
yielded fragments; try/catch becomes explicit `Option`/flag handling.
-/

namespace AssistantApp

/-! ### Data model of stream events (mirrors the JS payload shapes) -/

/-- The `text` object inside a content block: its `value` field may be absent. -/
structure TextPayload where
  value : Option String
deriving DecidableEq, Repr

/-- One element of `delta.content`; its `text` field may be absent
(`content[0]?.text` in the source). -/
structure ContentBlock where
  text : Option TextPayload
deriving DecidableEq, Repr

/-- The `delta` payload of a `thread.message.delta` event. -/
structure Delta where
  content : List ContentBlock
deriving DecidableEq, Repr

/-- `toolCall.function`: declared tool name and JSON-encoded argument string. -/
structure FunctionCall where
  name : String
  arguments : String
deriving DecidableEq, Repr

/-- One tool call request of a `requires_action` payload. -/
structure ToolCall where
  id : String
  function : FunctionCall
deriving DecidableEq, Repr

/-- The `data` payload of a `thread.run.requires_action` event:
the run id, the thread id, and
`required_action.submit_tool_outputs.tool_calls`. -/
structure RunPayload where
  id : String
  thread_id : String
  tool_calls : List ToolCall
deriving DecidableEq, Repr

/-- One chunk of an event stream. The source dispatches on the `event` tag
string: `thread.message.delta` (whose data's `delta` field may be absent),
`thread.run.requires_action`, and everything else (ignored). -/
inductive Event where
  | messageDelta (delta : Option Delta)
  | requiresAction (data : RunPayload)
  | other (tag : String)
deriving DecidableEq, Repr

/-- An element of the array handed to `submitToolOutputsStream`: either the
`{ tool_call_id, output }` record built for a `getStockPrice` call, or the
original tool-call value passed through unchanged (the JS array is
heterogeneous). -/
inductive ToolOutput where
  | submitted (tool_call_id : String) (output : String)
  | passthrough (call : ToolCall)
deriving DecidableEq, Repr

/-- The call identifier an output element is paired with. -/
def ToolOutput.callId : ToolOutput → String
  | .submitted i _ => i
  | .passthrough c => c.id

/-! ### JS primitives used by the extraction expression -/

/-- JS `v || dflt` on an optional string: absent and `""` are falsy. -/
def jsOrElse (v : Option String) (dflt : String) : String :=
  match v with
  | none => dflt
  | some s => if s.isEmpty then dflt else s

/-- `delta.content[0]?.text?.value` as an optional chain. -/
def firstTextValue (d : Delta) : Option String :=
  (d.content.head?.bind (·.text)).bind (·.value)

/-- `delta.content[0]?.text?.value || ""` — the fragment extracted from a
delta payload. -/
def extractValue (d : Delta) : String :=
  jsOrElse (firstTextValue d) ""

/-! ### Environment: the external collaborators -/

/-- External behavior visible to one request. `parseArgs` models
`JSON.parse(arguments).symbol`: `none` means `JSON.parse` threw (malformed
JSON), `some sym` gives the `symbol` field (itself absent when the parsed
object lacks it). `rand` gives the value of the `Math.random()` draw made
for the tool call at a given list position, abstracted as a natural number
(floating point is out of scope). `resume` models
`openai.beta.threads.runs.submitToolOutputsStream(threadId, runId, ...)`
followed by iteration: it returns the chunks the resumed stream delivered
and a flag that is `true` when the iteration ended by throwing (the chunks
are those delivered before the throw). -/
structure Env where
  parseArgs : String → Option (Option String)
  rand : Nat → Nat
  resume : String → String → List ToolOutput → List Event × Bool

/-! ### getStockPrice -/

/-- `getStockPrice(symbol)`: returns `"" + Math.random(10) * 1000`. The
random draw is the environment-supplied value `r`; the JS number-to-string
coercion is modelled as decimal rendering. The `symbol` parameter is
received (possibly absent, since the parsed object may lack the field) and
never used, exactly as in the source. -/
def getStockPrice (symbol : Option String) (r : Nat) : String :=
  "" ++ toString (r * 1000)

/-- A numeric string: nonempty, every character a decimal digit or a
decimal point. -/
def isNumericString (s : String) : Bool :=
  !s.data.isEmpty && s.data.all fun c => c.isDigit || c == '.'

/-! ### Tool dispatch (`handleRequiresAction`) -/

/-- The body of the arrow function mapped over `tool_calls`: for a call
named `getStockPrice`, parse the arguments, extract `symbol`, and build a
`{ tool_call_id, output }` record from `getStockPrice`'s result (`none`
when `JSON.parse` throws, which rejects the whole `Promise.all`); for any
other name, return the original tool-call value. `i` is the call's
position in the list, used to address its `Math.random` draw. -/
def dispatchToolCall (env : Env) (i : Nat) (c : ToolCall) : Option ToolOutput :=
  if c.function.name = "getStockPrice" then
    (env.parseArgs c.function.arguments).map fun symbol =>
      ToolOutput.submitted c.id (getStockPrice symbol (env.rand i))
  else
    some (ToolOutput.passthrough c)

/-- `Promise.all(tool_calls.map(...))` starting at position `i`: all
results in input order, or `none` when any mapped computation rejects. -/
def computeToolOutputsFrom (env : Env) (i : Nat) : List ToolCall → Option (List ToolOutput)
  | [] => some []
  | c :: rest =>
    match dispatchToolCall env i c, computeToolOutputsFrom env (i + 1) rest with
    | some o, some os => some (o :: os)
    | _, _ => none

/-- `await Promise.all(run.required_action.submit_tool_outputs.tool_calls.map(...))`. -/
def computeToolOutputs (env : Env) (calls : List ToolCall) : Option (List ToolOutput) :=
  computeToolOutputsFrom env 0 calls

/-- The fragments one chunk of the resumed stream yields inside
`submitToolOutputs`: only `thread.message.delta` chunks with a present
`delta` yield (one fragment each); every other chunk is ignored — in
particular a `requires_action` chunk triggers nothing here. -/
def resumedEventFrags : Event → List String
  | .messageDelta (some d) => [extractValue d]
  | _ => []

/-- The `for await` loop over the resumed stream's chunks. -/
def deltaFragsLoop : List Event → List String
  | [] => []
  | e :: rest => resumedEventFrags e ++ deltaFragsLoop rest

/-- `submitToolOutputs`: open the resumed stream and yield the delta
fragments of the chunks it delivers. Its own try/catch logs and swallows a
throw during stream creation or iteration, so the fragments yielded before
the throw are produced and no error escapes (the error flag of `resume` is
dropped). -/
def submitToolOutputs (env : Env) (toolOutputs : List ToolOutput)
    (runId threadId : String) : List String :=
  deltaFragsLoop (env.resume threadId runId toolOutputs).1

/-- `handleRequiresAction`: compute the tool outputs; on success delegate
to `submitToolOutputs` with the payload's `id` and `thread_id`; when
`Promise.all` rejects, the catch logs the error and the generator ends
having yielded nothing. -/
def handleRequiresAction (env : Env) (run : RunPayload) : List String :=
  match computeToolOutputs env run.tool_calls with
  | some toolOutputs => submitToolOutputs env toolOutputs run.id run.thread_id
  | none => []

/-! ### Query processor (`processQuery`) -/

/-- The fragments one chunk of the outer stream contributes in
`processQuery`'s loop: a present delta yields its extracted value, an
absent delta is skipped, a `requires_action` event delegates to
`handleRequiresAction`, every other event is ignored. -/
def chunkFrags (env : Env) : Event → List String
  | .messageDelta (some d) => [extractValue d]
  | .messageDelta none => []
  | .requiresAction data => handleRequiresAction env data
  | .other _ => []

/-- The `for await (const chunk of run)` loop of `processQuery`. -/
def processQueryFrags (env : Env) : List Event → List String
  | [] => []
  | c :: rest => chunkFrags env c ++ processQueryFrags env rest

/-! ### Assistant resolution and the static assistant definition -/

/-- One property of the JSON-schema `parameters.properties` object. -/
structure ParamProperty where
  name : String
  type : String
  description : String
deriving DecidableEq, Repr

/-- The JSON-schema `parameters` value of a declared function tool. -/
structure ToolParameters where
  type : String
  properties : List ParamProperty
  required : List String
deriving DecidableEq, Repr

/-- The `function` member of a declared tool. -/
structure FunctionDef where
  name : String
  description : String
  parameters : ToolParameters
deriving DecidableEq, Repr

/-- A declared tool (`{ type: "function", function: {...} }`). -/
structure ToolDef where
  type : String
  function : FunctionDef
deriving DecidableEq, Repr

/-- The static `assistantDefinition` value. -/
structure AssistantDefinition where
  name : String
  instructions : String
  tools : List ToolDef
  model : Option String
deriving DecidableEq, Repr

/-- Environment-sourced configuration: `ASSISTANT_ID` and
`AZURE_DEPLOYMENT_NAME`, each possibly unset. -/
structure Config where
  assistantId : Option String
  deploymentName : Option String

/-- The static `assistantDefinition` constant, parameterized by the
`AZURE_DEPLOYMENT_NAME` value it closes over. -/
def assistantDefinition (deployment : Option String) : AssistantDefinition where
  name := "Finance Assistant"
  instructions :=
    "You are a personal finance assistant. Retrieve the latest closing price of a stock using its ticker symbol."
  tools := [
    { type := "function"
      function :=
        { name := "getStockPrice"
          description :=
            "Retrieve the latest closing price of a stock using its ticker symbol."
          parameters :=
            { type := "object"
              properties := [
                { name := "symbol"
                  type := "string"
                  description := "The ticker symbol of the stock" }]
              required := ["symbol"] } } }]
  model := deployment

/-- JS truthiness of an optional string: `undefined` and `""` are falsy. -/
def jsTruthy : Option String → Bool
  | none => false
  | some s => !s.isEmpty

/-- How Step 1 obtained the assistant: fetched via `retrieve(id)` or
created from the static definition (the two branches of the conditional
are mutually exclusive). -/
inductive AssistantResolution where
  | retrieved (id : String)
  | created (definition : AssistantDefinition)
deriving DecidableEq, Repr

/-- `ASSISTANT_ID ? retrieve(ASSISTANT_ID) : create(assistantDefinition)`. -/
def resolveAssistant (cfg : Config) : AssistantResolution :=
  if jsTruthy cfg.assistantId then
    AssistantResolution.retrieved (cfg.assistantId.getD "")
  else
    AssistantResolution.created (assistantDefinition cfg.deploymentName)

/-- The observable outcome of one `processQuery` run: which assistant
resolution Step 1 performed, the user message appended to the thread, and
the fragment sequence the generator yielded. -/
structure QueryRun where
  resolution : AssistantResolution
  userMessage : String
  fragments : List String
deriving Repr

/-- `processQuery(userQuery, context)`: resolve the assistant, create a
thread, post the user message, start the run, and stream fragments from
the upstream event list. -/
def processQuery (env : Env) (cfg : Config) (userQuery : String)
    (stream : List Event) : QueryRun where
  resolution := resolveAssistant cfg
  userMessage := userQuery
  fragments := processQueryFrags env stream

/-! ### Auxiliary notions used by the claims -/

/-- Whether a chunk carries the `thread.message.delta` tag. -/
def isTextDelta : Event → Bool
  | .messageDelta _ => true
  | _ => false

/-- The text value extracted from a chunk: the delta's extracted value for
a text-delta chunk with a present delta, the empty string otherwise. -/
def eventTextValue : Event → String
  | .messageDelta (some d) => extractValue d
  | _ => ""

/-- Concatenation of a fragment sequence, in order. -/
def concatFrags : List String → String
  | [] => ""
  | s :: rest => s ++ concatFrags rest

/-! ### Concrete values used by witnesses and counterexamples -/

/-- Configuration with nothing set. -/
def cfgNone : Config where
  assistantId := none
  deploymentName := none

/-- A delta payload whose first content block's text value is `"x"`. -/
def deltaX : Delta where
  content := [{ text := some { value := some "x" } }]

/-- A delta payload whose first content block's text value is `"y"`. -/
def deltaY : Delta where
  content := [{ text := some { value := some "y" } }]

/-- A `getStockPrice` tool call. -/
def stockCall : ToolCall where
  id := "call_1"
  function := { name := "getStockPrice", arguments := "\x7b\x22symbol\x22:\x22MSFT\x22\x7d" }

/-- A requires-action payload with the single `getStockPrice` call. -/
def stockRun : RunPayload where
  id := "run_1"
  thread_id := "thread_1"
  tool_calls := [stockCall]

/-- A tool call with an unrecognized name. -/
def otherCall : ToolCall where
  id := "call_2"
  function := { name := "echo", arguments := "\x7b\x7d" }

/-- Configuration with a fixed assistant identifier set. -/
def cfgAsst : Config where
  assistantId := some "asst_123"
  deploymentName := some "gpt-4o"

/-- Environment in which `JSON.parse` throws on every argument string. -/
def envParseFail : Env where
  parseArgs := fun _ => none
  rand := fun _ => 0
  resume := fun _ _ _ => ([], false)

/-- Environment in which parsing succeeds, the random draw is 7, and the
resumed stream delivers one `"x"` delta and then the iteration throws. -/
def envResumeFail : Env where
  parseArgs := fun _ => some (some "MSFT")
  rand := fun _ => 7
  resume := fun _ _ _ => ([Event.messageDelta (some deltaX)], true)

/-- Environment in which parsing succeeds, the random draw is 7, and the
resumed stream delivers a `"y"` delta, a requires-action chunk, and an
`"x"` delta, then ends cleanly. -/
def envResumed : Env where
  parseArgs := fun _ => some (some "MSFT")
  rand := fun _ => 7
  resume := fun _ _ _ =>
    ([Event.messageDelta (some deltaY), Event.requiresAction stockRun,
      Event.messageDelta (some deltaX)], false)

/-! ### Helper lemmas -/

theorem nil_append_str (s : String) : "" ++ s = s := by
  cases s
  rfl

theorem processQueryFrags_append (env : Env) (s t : List Event) :
    processQueryFrags env (s ++ t)
      = processQueryFrags env s ++ processQueryFrags env t := by
  induction s with
  | nil => rfl
  | cons e rest ih =>
    simp [processQueryFrags, ih]

theorem deltaFragsLoop_append (s t : List Event) :
    deltaFragsLoop (s ++ t) = deltaFragsLoop s ++ deltaFragsLoop t := by
  induction s with
  | nil => rfl
  | cons e rest ih =>
    simp [deltaFragsLoop, ih]

theorem digitChar_isDigit (m : Nat) (h : m < 10) :
    (Nat.digitChar m).isDigit = true := by
  interval_cases m <;> rfl

theorem toDigitsCore_digits (f : Nat) :
    ∀ (n : Nat) (l : List Char), (∀ c ∈ l, c.isDigit = true) →
      ∀ c ∈ Nat.toDigitsCore 10 f n l, c.isDigit = true := by
  induction f with
  | zero => intro n l hl; simpa [Nat.toDigitsCore] using hl
  | succ f ih =>
    intro n l hl c hc
    simp only [Nat.toDigitsCore] at hc
    by_cases h0 : n / 10 = 0
    · rw [if_pos h0] at hc
      rcases List.mem_cons.mp hc with h | h
      · subst h; exact digitChar_isDigit _ (Nat.mod_lt _ (by omega))
      · exact hl _ h
    · rw [if_neg h0] at hc
      refine ih (n / 10) (Nat.digitChar (n % 10) :: l) ?_ c hc
      intro c' hc'
      rcases List.mem_cons.mp hc' with h | h
      · subst h; exact digitChar_isDigit _ (Nat.mod_lt _ (by omega))
      · exact hl _ h

theorem toDigitsCore_ne_nil :
    ∀ (f n : Nat) (l : List Char), 0 < f ∨ l ≠ [] →
      Nat.toDigitsCore 10 f n l ≠ [] := by
  intro f
  induction f with
  | zero =>
    intro n l h
    rcases h with h | h
    · omega
    · simpa [Nat.toDigitsCore] using h
  | succ f ih =>
    intro n l _
    simp only [Nat.toDigitsCore]
    by_cases h0 : n / 10 = 0
    · rw [if_pos h0]; exact List.cons_ne_nil _ _
    · rw [if_neg h0]
      exact ih (n / 10) (Nat.digitChar (n % 10) :: l) (Or.inr (List.cons_ne_nil _ _))

theorem repr_isNumericString (n : Nat) : isNumericString (Nat.repr n) = true := by
  have hdata : (Nat.repr n).data = Nat.toDigits 10 n := rfl
  have hne : Nat.toDigits 10 n ≠ [] :=
    toDigitsCore_ne_nil (n + 1) n [] (Or.inl (Nat.succ_pos n))
  have hdig : ∀ c ∈ Nat.toDigits 10 n, c.isDigit = true :=
    toDigitsCore_digits (n + 1) n [] (by intro c hc; cases hc)
  unfold isNumericString
  rw [hdata, Bool.and_eq_true]
  constructor
  · cases h : Nat.toDigits 10 n with
    | nil => exact absurd h hne
    | cons a l => rfl
  · rw [List.all_eq_true]
    intro c hc
    simp [hdig c hc]

theorem getStockPrice_eq_repr (symbol : Option String) (r : Nat) :
    getStockPrice symbol r = Nat.repr (r * 1000) := by
  unfold getStockPrice
  exact nil_append_str _

/-- Elementwise description of a successful `Promise.all` over the mapped
tool calls: one output per call, in input order, each produced by
`dispatchToolCall` at the call's position. -/
theorem computeToolOutputsFrom_spec (env : Env) :
    ∀ (calls : List ToolCall) (i : Nat) (outs : List ToolOutput),
      computeToolOutputsFrom env i calls = some outs →
      outs.length = calls.length ∧
        ∀ j (hj : j < calls.length) (hj' : j < outs.length),
          dispatchToolCall env (i + j) (calls.get ⟨j, hj⟩) = some (outs.get ⟨j, hj'⟩) := by
  intro calls
  induction calls with
  | nil =>
    intro i outs h
    simp only [computeToolOutputsFrom, Option.some.injEq] at h
    subst h
    exact ⟨rfl, by intro j hj; cases hj⟩
  | cons c rest ih =>
    intro i outs h
    simp only [computeToolOutputsFrom] at h
    cases hd : dispatchToolCall env i c with
    | none => rw [hd] at h; cases h
    | some o =>
      rw [hd] at h
      cases hr : computeToolOutputsFrom env (i + 1) rest with
      | none => rw [hr] at h; cases h
      | some os =>
        rw [hr] at h
        simp only [Option.some.injEq] at h
        subst h
        obtain ⟨hlen, hget⟩ := ih (i + 1) os hr
        refine ⟨by simpa using hlen, ?_⟩
        intro j hj hj'
        cases j with
        | zero => simpa using hd
        | succ j =>
          have hj2 : j < rest.length := by simpa using hj
          have hj2' : j < os.length := by simpa using hj'
          have := hget j hj2 hj2'
          have harith : i + (j + 1) = i + 1 + j := by omega
          rw [harith]
          simpa using this

/-- Each output element of a successful dispatch carries its originating
call's identifier; outputs correspond one-to-one, in order, to calls. -/
theorem computeToolOutputs_forall2 (env : Env) (calls : List ToolCall)
    (outs : List ToolOutput) (h : computeToolOutputs env calls = some outs) :
    List.Forall₂
      (fun (call : ToolCall) (out : ToolOutput) => out.callId = call.id) calls outs := by
  obtain ⟨hlen, hget⟩ := computeToolOutputsFrom_spec env calls 0 outs h
  rw [List.forall₂_iff_get]
  refine ⟨hlen.symm, ?_⟩
  intro j h₁ h₂
  have hd := hget j h₁ h₂
  unfold dispatchToolCall at hd
  by_cases hname : (calls.get ⟨j, h₁⟩).function.name = "getStockPrice"
  · rw [if_pos hname] at hd
    cases hp : env.parseArgs (calls.get ⟨j, h₁⟩).function.arguments with
    | none => rw [hp] at hd; cases hd
    | some sym =>
      rw [hp] at hd
      simp only [Option.map_some', Option.some.injEq] at hd
      rw [← hd]
      rfl
  · rw [if_neg hname] at hd
    simp only [Option.some.injEq] at hd
    rw [← hd]
    rfl

theorem processQueryFrags_delta_only (env : Env) :
    ∀ (stream : List Event), (∀ e ∈ stream, isTextDelta e = true) →
      concatFrags (processQueryFrags env stream)
        = concatFrags (stream.map eventTextValue) := by
  intro stream
  induction stream with
  | nil => intro _; rfl
  | cons e rest ih =>
    intro h
    have he := h e (List.mem_cons_self e rest)
    have hrest : ∀ x ∈ rest, isTextDelta x = true :=
      fun x hx => h x (List.mem_cons_of_mem e hx)
    cases e with
    | messageDelta d =>
      cases d with
      | none =>
        show concatFrags (processQueryFrags env rest)
          = concatFrags ("" :: rest.map eventTextValue)
        show concatFrags (processQueryFrags env rest)
          = "" ++ concatFrags (rest.map eventTextValue)
        rw [nil_append_str, ih hrest]
      | some dd =>
        show concatFrags (extractValue dd :: processQueryFrags env rest)
          = concatFrags (extractValue dd :: rest.map eventTextValue)
        show extractValue dd ++ concatFrags (processQueryFrags env rest)
          = extractValue dd ++ concatFrags (rest.map eventTextValue)
        rw [ih hrest]
    | requiresAction data => simp [isTextDelta] at he
    | other tag => simp [isTextDelta] at he

/-! ### The claims -/

/-- Claim C1: over an upstream stream of only text-delta events (no
requires-action events), the concatenation of the yielded fragments equals
the concatenation of every delta event's extracted text value in delivery
order, and the yielded sequence ends exactly with the upstream stream
(fragment production is compositional along the stream: events after any
point contribute exactly their own fragments, after the earlier ones). -/
theorem processQuery_delta_only (env : Env) (cfg : Config) (q : String)
    (stream : List Event) (h : ∀ e ∈ stream, isTextDelta e = true) :
    concatFrags (processQuery env cfg q stream).fragments
      = concatFrags (stream.map eventTextValue)
    ∧ ∀ tail, processQueryFrags env (stream ++ tail)
        = processQueryFrags env stream ++ processQueryFrags env tail :=
  ⟨processQueryFrags_delta_only env stream h,
   fun tail => processQueryFrags_append env stream tail⟩

theorem processQuery_delta_only_witness :
    concatFrags (processQuery envParseFail cfgNone "q"
        [Event.messageDelta (some deltaX), Event.messageDelta none,
         Event.messageDelta (some deltaY)]).fragments
      = concatFrags ([Event.messageDelta (some deltaX), Event.messageDelta none,
         Event.messageDelta (some deltaY)].map eventTextValue) :=
  (processQuery_delta_only envParseFail cfgNone "q"
    [Event.messageDelta (some deltaX), Event.messageDelta none,
     Event.messageDelta (some deltaY)] (by decide)).1

/-- Claim C2: when the upstream stream contains a requires-action event,
the outer fragment sequence is exactly the fragments of the preceding
events, then all fragments of the delegated dispatch contiguously, then
the fragments of the following events — a sequential, never interleaved,
merge. -/
theorem processQuery_requiresAction_contiguous (env : Env) (cfg : Config) (q : String)
    (pre post : List Event) (run : RunPayload) :
    (processQuery env cfg q (pre ++ Event.requiresAction run :: post)).fragments
      = processQueryFrags env pre ++ handleRequiresAction env run
          ++ processQueryFrags env post := by
  show processQueryFrags env (pre ++ Event.requiresAction run :: post) = _
  rw [processQueryFrags_append]
  simp [processQueryFrags, chunkFrags, List.append_assoc]

/-- Claim C3: for a payload with exactly one `getStockPrice` call (whose
argument string parses), the dispatcher computes and submits exactly one
Tool Output whose `tool_call_id` is the originating call's id and whose
output is a numeric string; in general the submitted outputs correspond
one-to-one, in order, to the requested calls (each output carries its
call's identifier). -/
theorem handleRequiresAction_single_stock (env : Env) (c : ToolCall) (sym : Option String)
    (hname : c.function.name = "getStockPrice")
    (hparse : env.parseArgs c.function.arguments = some sym) :
    computeToolOutputs env [c]
        = some [ToolOutput.submitted c.id (getStockPrice sym (env.rand 0))]
    ∧ (∀ runId threadId,
        handleRequiresAction env { id := runId, thread_id := threadId, tool_calls := [c] }
          = submitToolOutputs env
              [ToolOutput.submitted c.id (getStockPrice sym (env.rand 0))] runId threadId)
    ∧ isNumericString (getStockPrice sym (env.rand 0)) = true
    ∧ ∀ calls outs, computeToolOutputs env calls = some outs →
        List.Forall₂ (fun (call : ToolCall) (out : ToolOutput) => out.callId = call.id)
          calls outs := by
  have hone : computeToolOutputs env [c]
      = some [ToolOutput.submitted c.id (getStockPrice sym (env.rand 0))] := by
    unfold computeToolOutputs computeToolOutputsFrom dispatchToolCall
    rw [if_pos hname, hparse]
    rfl
  refine ⟨hone, ?_, ?_, ?_⟩
  · intro runId threadId
    unfold handleRequiresAction
    rw [hone]
  · rw [getStockPrice_eq_repr]
    exact repr_isNumericString _
  · exact fun calls outs hc => computeToolOutputs_forall2 env calls outs hc

theorem handleRequiresAction_single_stock_witness :
    computeToolOutputs envResumed [stockCall]
      = some [ToolOutput.submitted "call_1" "7000"]
    ∧ isNumericString "7000" = true := by
  have h := handleRequiresAction_single_stock envResumed stockCall (some "MSFT") rfl rfl
  constructor
  · rw [h.1]
    decide
  · exact h.2.2.1

/-- Claim C4, counterexample: the claim says that after a failed dispatch
the outer sequence ends immediately with no further fragments. Here the
dispatch fails (malformed JSON arguments) having yielded nothing, yet a
delta event following the requires-action event still yields `"x"`: the
outer loop keeps consuming the stream after the swallowed failure. -/
theorem dispatch_failure_counterexample :
    (processQuery envParseFail cfgNone "q"
        [Event.requiresAction stockRun, Event.messageDelta (some deltaX)]).fragments
      = ["x"]
    ∧ (processQuery envParseFail cfgNone "q"
        [Event.requiresAction stockRun, Event.messageDelta (some deltaX)]).fragments
      ≠ [] := by
  constructor <;> decide

/-- Claim C4, amended: when the dispatch fails (the tool-output
computation rejects, e.g. on malformed JSON arguments) or the tool-output
submission's resumed stream throws, the error is swallowed — the consumer
sees a plain fragment list, never an error — and the dispatch contributes
no fragments beyond those already yielded from the resumed stream before
the throw; the outer sequence then continues with the fragments of the
outer events following the requires-action event (so it ends right after
the dispatch's last fragment exactly when the requires-action event is the
last outer event). -/
theorem dispatch_failure_swallowed (env : Env) (cfg : Config) (q : String)
    (pre post : List Event) (run : RunPayload) :
    (computeToolOutputs env run.tool_calls = none →
      (processQuery env cfg q (pre ++ Event.requiresAction run :: post)).fragments
        = processQueryFrags env pre ++ processQueryFrags env post)
    ∧ ∀ outs evs, computeToolOutputs env run.tool_calls = some outs →
        env.resume run.thread_id run.id outs = (evs, true) →
        (processQuery env cfg q (pre ++ Event.requiresAction run :: post)).fragments
          = processQueryFrags env pre ++ deltaFragsLoop evs
              ++ processQueryFrags env post := by
  have hsplit : (processQuery env cfg q (pre ++ Event.requiresAction run :: post)).fragments
      = processQueryFrags env pre ++ handleRequiresAction env run
          ++ processQueryFrags env post := by
    show processQueryFrags env (pre ++ Event.requiresAction run :: post) = _
    rw [processQueryFrags_append]
    simp [processQueryFrags, chunkFrags, List.append_assoc]
  constructor
  · intro hfail
    rw [hsplit]
    unfold handleRequiresAction
    rw [hfail]
    simp
  · intro outs evs hok hthrow
    rw [hsplit]
    unfold handleRequiresAction
    rw [hok]
    show processQueryFrags env pre
          ++ deltaFragsLoop (env.resume run.thread_id run.id outs).1
          ++ processQueryFrags env post
        = processQueryFrags env pre ++ deltaFragsLoop evs ++ processQueryFrags env post
    rw [hthrow]

theorem dispatch_failure_swallowed_witness :
    (processQuery envParseFail cfgNone "q" [Event.requiresAction stockRun]).fragments = []
    ∧ (processQuery envResumeFail cfgNone "q" [Event.requiresAction stockRun]).fragments
      = ["x"] := by
  constructor
  · exact (dispatch_failure_swallowed envParseFail cfgNone "q" [] [] stockRun).1 rfl
  · exact (dispatch_failure_swallowed envResumeFail cfgNone "q" [] [] stockRun).2
      [ToolOutput.submitted "call_1" "7000"] [Event.messageDelta (some deltaX)]
      (by decide) rfl

/-- Claim C5: a tool call whose declared name is not `getStockPrice` is
dispatched to its original value unchanged (identity pass-through), with
no error; and in any successful dispatch every such call's output element
is the original call value. -/
theorem dispatch_passthrough (env : Env) (i : Nat) (c : ToolCall)
    (h : c.function.name ≠ "getStockPrice") :
    dispatchToolCall env i c = some (ToolOutput.passthrough c)
    ∧ ∀ calls outs, computeToolOutputs env calls = some outs →
        List.Forall₂ (fun (call : ToolCall) (out : ToolOutput) =>
          call.function.name ≠ "getStockPrice" → out = ToolOutput.passthrough call)
          calls outs := by
  constructor
  · unfold dispatchToolCall
    rw [if_neg h]
  · intro calls outs hc
    obtain ⟨hlen, hget⟩ := computeToolOutputsFrom_spec env calls 0 outs hc
    rw [List.forall₂_iff_get]
    refine ⟨hlen.symm, ?_⟩
    intro j h₁ h₂ hne
    have hd := hget j h₁ h₂
    unfold dispatchToolCall at hd
    rw [if_neg hne] at hd
    simp only [Option.some.injEq] at hd
    exact hd.symm

theorem dispatch_passthrough_witness :
    dispatchToolCall envParseFail 0 otherCall = some (ToolOutput.passthrough otherCall) :=
  (dispatch_passthrough envParseFail 0 otherCall (by decide)).1

/-- Claim C6: the resumed-stream consumer yields a fragment only for
text-delta events with a present delta and ignores every other event kind;
in particular a requires-action event on the resumed stream triggers no
second dispatch — it contributes nothing to `submitToolOutputs`'s output
(single-hop tool resolution). -/
theorem submitToolOutputs_single_hop (env : Env) (outs : List ToolOutput)
    (runId threadId : String) :
    (∀ run, resumedEventFrags (Event.requiresAction run) = [])
    ∧ (∀ tag, resumedEventFrags (Event.other tag) = [])
    ∧ resumedEventFrags (Event.messageDelta none) = []
    ∧ (∀ d, resumedEventFrags (Event.messageDelta (some d)) = [extractValue d])
    ∧ ∀ pre run post b,
        env.resume threadId runId outs = (pre ++ Event.requiresAction run :: post, b) →
        submitToolOutputs env outs runId threadId
          = deltaFragsLoop pre ++ deltaFragsLoop post := by
  refine ⟨fun run => rfl, fun tag => rfl, rfl, fun d => rfl, ?_⟩
  intro pre run post b hres
  unfold submitToolOutputs
  rw [hres]
  simp [deltaFragsLoop_append, deltaFragsLoop, resumedEventFrags]

theorem submitToolOutputs_single_hop_witness :
    submitToolOutputs envResumed [ToolOutput.submitted "call_1" "7000"] "run_1" "thread_1"
      = deltaFragsLoop [Event.messageDelta (some deltaY)]
          ++ deltaFragsLoop [Event.messageDelta (some deltaX)] :=
  (submitToolOutputs_single_hop envResumed [ToolOutput.submitted "call_1" "7000"]
    "run_1" "thread_1").2.2.2.2
    [Event.messageDelta (some deltaY)] stockRun [Event.messageDelta (some deltaX)] false rfl

/-- Claim C7: for every processed text-delta event (outer or resumed
stream), the yielded fragment is the first content block's text value, and
the empty string when that value is absent anywhere along the optional
chain. -/
theorem delta_fragment_extraction (env : Env) (d : Delta) :
    chunkFrags env (Event.messageDelta (some d)) = [extractValue d]
    ∧ resumedEventFrags (Event.messageDelta (some d)) = [extractValue d]
    ∧ extractValue d = (firstTextValue d).getD "" := by
  refine ⟨rfl, rfl, ?_⟩
  unfold extractValue jsOrElse
  cases h : firstTextValue d with
  | none => rfl
  | some s =>
    show (if s.isEmpty then "" else s) = (some s).getD ""
    by_cases hs : s.isEmpty
    · rw [if_pos hs]
      have hempty := (String.isEmpty_iff s).mp hs
      simp [hempty]
    · rw [if_neg hs]
      rfl

/-- Claim C8: when the fixed assistant identifier is configured
(non-empty), Step 1 fetches the assistant with exactly that identifier and
creates none; otherwise it creates one from the static
`assistantDefinition`. -/
theorem assistant_resolution_branch (env : Env) (cfg : Config) (q : String)
    (stream : List Event) :
    (∀ s, cfg.assistantId = some s → s ≠ "" →
        (processQuery env cfg q stream).resolution = AssistantResolution.retrieved s)
    ∧ (jsTruthy cfg.assistantId = false →
        (processQuery env cfg q stream).resolution
          = AssistantResolution.created (assistantDefinition cfg.deploymentName)) := by
  constructor
  · intro s hs hne
    show resolveAssistant cfg = _
    unfold resolveAssistant
    have ht : jsTruthy cfg.assistantId = true := by
      rw [hs]
      show (!s.isEmpty) = true
      cases hsE : s.isEmpty with
      | true => exact absurd ((String.isEmpty_iff s).mp hsE) hne
      | false => rfl
    rw [if_pos ht, hs]
    rfl
  · intro hf
    show resolveAssistant cfg = _
    unfold resolveAssistant
    rw [if_neg (by simp [hf])]

theorem assistant_resolution_branch_witness :
    (processQuery envParseFail cfgAsst "q" []).resolution
      = AssistantResolution.retrieved "asst_123" :=
  (assistant_resolution_branch envParseFail cfgAsst "q" []).1 "asst_123" rfl (by decide)

/-- Claim C9: a text-delta event whose payload lacks the `delta` field is
skipped entirely — no fragment at all, not an empty-string fragment — in
both the outer and the resumed stream consumers. -/
theorem delta_absent_skipped (env : Env) :
    chunkFrags env (Event.messageDelta none) = []
    ∧ resumedEventFrags (Event.messageDelta none) = []
    ∧ chunkFrags env (Event.messageDelta none) ≠ [""] := by
  refine ⟨rfl, rfl, by simp [chunkFrags]⟩

/-- Claim C10: `getStockPrice`'s result never depends on the symbol
argument — with the same random draw, any two symbols give the same
returned string. -/
theorem getStockPrice_symbol_independent (s1 s2 : Option String) (r : Nat) :
    getStockPrice s1 r = getStockPrice s2 r := rfl

end AssistantApp
